import Mathlib

/-!
Verification of the Serbo process-supervision core (src/lib.rs).

The Rust source is shallowly embedded: each Rust function is translated
into a pure Lean function over explicit state.  Machine integers that the
source uses as indices (u32 cast to usize) are modelled as Nat; fallible
Rust functions returning Result become Except; Option stays Option.
The OS process is modelled by the outcome of its liveness probe
(Child::try_wait), and the filesystem by the list of server ids whose
working directory exists under server_files_folder.
-/

/-- The error taxonomy of src/lib.rs (enum Error, lines 111-130).  The
payload strings are kept; the io::Error payload is dropped since only its
presence matters to control flow. -/
inductive SError where
  | ioError
  | serverOffline (id : String)
  | serverAlreadyOnline (id : String)
  | serverFilesMissing (id : String)
  | serverAlreadyExists (id : String)
  | threadError (which : String) (id : String)
  | serverProcessExited (id : String)
  | serverStillStarting (id : String)
deriving DecidableEq, Repr

/-- Outcome of Child::try_wait on the server process: the process is still
running, has exited, or the probe itself returned an io::Error. -/
inductive ProbeRes where
  | running
  | exited
  | err
deriving DecidableEq, Repr

/-- struct Instance (src/lib.rs lines 420-430).  The JoinHandles carry no
data; the Child is represented by its probe outcome.  console_log and
stdin_queue are the Vec<String> behind their mutexes; thread_cond and
starting are the booleans behind their RwLocks. -/
structure InstanceM where
  probe : ProbeRes
  consoleLog : List String
  stdinQueue : List String
  threadCond : Bool
  starting : Bool
  port : Nat
  id : String
deriving DecidableEq, Repr

namespace InstanceM

/-- Instance::is_valid (lines 441-446): Ok(false) when try_wait reports an
exit status, Ok(true) when it reports None (still running), Err on probe
error. -/
def is_valid (i : InstanceM) : Except Unit Bool :=
  match i.probe with
  | .running => .ok true
  | .exited => .ok false
  | .err => .error ()

/-- Instance::process_check (lines 447-452): propagates a probe error as
IoError, maps a dead process to ServerProcessExited. -/
def process_check (i : InstanceM) : Except SError Unit :=
  match i.is_valid with
  | .ok true => .ok ()
  | .ok false => .error (.serverProcessExited i.id)
  | .error _ => .error .ioError

/-- Instance::send (lines 459-465): process_check first (with question
mark, so its error propagates), then push the message onto stdin_queue. -/
def send (i : InstanceM) (msg : String) : Except SError InstanceM :=
  match i.process_check with
  | .error e => .error e
  | .ok _ => .ok { i with stdinQueue := i.stdinQueue ++ [msg] }

/-- Instance::stop (lines 435-439): the first process_check result is
discarded with a wildcard let, then send("/stop") whose error propagates. -/
def stop (i : InstanceM) : Except SError InstanceM :=
  i.send "/stop"

/-- Instance::get (lines 472-480): clamp the start line to the log length,
then return the suffix from that index. -/
def get (i : InstanceM) (start : Nat) : List String :=
  let start_line := if start > i.consoleLog.length then i.consoleLog.length else start
  i.consoleLog.drop start_line

end InstanceM

/-- struct Manager (src/lib.rs lines 169-174).  The HashMap is modelled as
an association list with unique keys. -/
structure ManagerM where
  servers : List (String × InstanceM)
  server_files_folder : String
  version_folder : String
  jar_name : String
deriving DecidableEq, Repr

/-- HashMap::remove on the association list. -/
def removeKey (l : List (String × InstanceM)) (id : String) : List (String × InstanceM) :=
  l.filter (fun p => p.1 != id)

namespace ManagerM

/-- Manager::exists (lines 242-244): Path::exists on
server_files_folder/id.  The filesystem is the list of ids whose working
directory currently exists. -/
def dirExists (dirs : List String) (id : String) : Bool :=
  dirs.contains id

/-- Manager::get (lines 227-238): look the id up; keep the instance only
when is_valid returns Ok(true); Ok(false) and Err both give None. -/
def get (m : ManagerM) (id : String) : Option InstanceM :=
  match m.servers.lookup id with
  | some a =>
    match a.is_valid with
    | .ok true => some a
    | .ok false => none
    | .error _ => none
  | none => none

/-- Manager::stop (lines 364-383): Offline when the id is not registered;
StillStarting when the instance's starting flag is still true; otherwise
Instance::stop (whose error propagates by question mark, leaving the map
untouched), then thread_cond := false, both joins, process wait, and
removal from the map. -/
def stop (m : ManagerM) (id : String) : Except SError ManagerM :=
  match m.servers.lookup id with
  | some inst =>
    if !inst.starting then
      match inst.stop with
      | .error e => .error e
      | .ok _ => .ok { m with servers := removeKey m.servers id }
    else .error (.serverStillStarting id)
  | none => .error (.serverOffline id)

/-- Manager::start (lines 260-360): FilesMissing when the working
directory is absent, AlreadyOnline when the id is already registered;
otherwise spawn (spawnOk models Command::spawn succeeding), take the two
stream handles (stdoutOk, stdinOk model the Option takes), build the fresh
Instance, spawn the two pumps, enqueue the readiness handshake through
Instance::send, and register the instance.  Returns the port. -/
def start (dirs : List String) (spawnOk stdoutOk stdinOk : Bool)
    (m : ManagerM) (id : String) (port : Nat) : Except SError (ManagerM × Nat) :=
  if !(dirExists dirs id) then .error (.serverFilesMissing id)
  else match m.servers.lookup id with
    | some _ => .error (.serverAlreadyOnline id)
    | none =>
      if !spawnOk then .error .ioError
      else if !stdoutOk then .error (.threadError "stdout" id)
      else if !stdinOk then .error (.threadError "stdin" id)
      else
        let inst0 : InstanceM :=
          { probe := .running, consoleLog := [], stdinQueue := [],
            threadCond := true, starting := true, port := port, id := id }
        match inst0.send "/say SERVER READY" with
        | .error e => .error e
        | .ok inst1 => .ok ({ m with servers := (id, inst1) :: m.servers }, port)

/-- Manager::delete (lines 389-396): a best-effort stop whose result is
discarded with a wildcard let (on every error path of Manager::stop the
map is not mutated, so the discarded error leaves m as it was), then
FilesMissing when the working directory is absent, else
fs::remove_dir_all with a question mark: removeOk models whether that
filesystem call succeeds, and its io::Error propagates as IoError.
Returns the new filesystem together with the manager state. -/
def delete (dirs : List String) (removeOk : Bool) (m : ManagerM) (id : String) :
    Except SError (List String × ManagerM) :=
  let m1 := match m.stop id with
    | .ok m2 => m2
    | .error _ => m
  if !(dirExists dirs id) then .error (.serverFilesMissing id)
  else if !removeOk then .error .ioError
  else .ok (dirs.erase id, m1)

end ManagerM

/-- A registered instance that has reached Ready (starting flag false). -/
def instReady : InstanceM :=
  { probe := .running, consoleLog := [], stdinQueue := [],
    threadCond := true, starting := false, port := 25565, id := "A" }

/-- An instance still in its Starting phase. -/
def instStarting : InstanceM := { instReady with starting := true }

/-- A Ready instance whose process has already exited on its own. -/
def instDead : InstanceM := { instReady with probe := .exited }

/-- A manager with no registered servers. -/
def mgr0 : ManagerM :=
  { servers := [], server_files_folder := "servers",
    version_folder := "versions", jar_name := "server.jar" }

/-- A manager with exactly the given instance registered under id A. -/
def mgrWith (i : InstanceM) : ManagerM := { mgr0 with servers := [("A", i)] }

/-- Claim C5: Instance::get never errors and never indexes out of range:
the clamped start index stays within the log length, offset 0 returns the
full history, an offset past the length returns the empty list, and in
general the result is exactly the suffix of the log from the offset. -/
theorem instance_get_total_c5 (i : InstanceM) (start : Nat) :
    InstanceM.get i start = i.consoleLog.drop start
    ∧ InstanceM.get i 0 = i.consoleLog
    ∧ (i.consoleLog.length < start → InstanceM.get i start = [])
    ∧ (if start > i.consoleLog.length then i.consoleLog.length else start)
        ≤ i.consoleLog.length := by
  refine ⟨?_, ?_, ?_, ?_⟩
  · unfold InstanceM.get
    by_cases h : start > i.consoleLog.length
    · simp only [h, if_true]
      rw [List.drop_length, List.drop_eq_nil_of_le (Nat.le_of_lt h)]
    · simp [h]
  · unfold InstanceM.get
    simp
  · intro h
    unfold InstanceM.get
    rw [if_pos h]
    exact i.consoleLog.drop_length
  · split <;> omega

/-- Witness for C5 at a concrete log and an offset past its length. -/
theorem instance_get_total_c5_witness :
    InstanceM.get
      { probe := .running, consoleLog := ["a", "b"], stdinQueue := [],
        threadCond := true, starting := false, port := 0, id := "A" } 5 = [] :=
  (instance_get_total_c5
    { probe := .running, consoleLog := ["a", "b"], stdinQueue := [],
      threadCond := true, starting := false, port := 0, id := "A" } 5).2.2.1 (by decide)

/-- Claim C9: Manager::get returns the instance iff it is registered and
the liveness probe reports the process still running; a process that has
exited, or a probe error, both yield None even though the map entry
remains. -/
theorem manager_get_liveness_c9 (m : ManagerM) (id : String) :
    (∀ inst, ManagerM.get m id = some inst ↔
      (m.servers.lookup id = some inst ∧ inst.probe = ProbeRes.running))
    ∧ (∀ inst, m.servers.lookup id = some inst → inst.probe ≠ ProbeRes.running →
      ManagerM.get m id = none) := by
  constructor
  · intro inst
    constructor
    · intro hg
      unfold ManagerM.get at hg
      cases h : m.servers.lookup id with
      | none => rw [h] at hg; exact Option.noConfusion hg
      | some a =>
        rw [h] at hg
        cases hp : a.probe with
        | running =>
          simp only [InstanceM.is_valid, hp] at hg
          obtain rfl := Option.some.inj hg
          exact ⟨rfl, hp⟩
        | exited =>
          simp only [InstanceM.is_valid, hp] at hg
          exact Option.noConfusion hg
        | err =>
          simp only [InstanceM.is_valid, hp] at hg
          exact Option.noConfusion hg
    · intro hc
      unfold ManagerM.get
      rw [hc.1]
      simp only [InstanceM.is_valid, hc.2]
  · intro inst hl hp
    unfold ManagerM.get
    rw [hl]
    cases hpp : inst.probe with
    | running => exact absurd hpp hp
    | exited => simp only [InstanceM.is_valid, hpp]
    | err => simp only [InstanceM.is_valid, hpp]

/-- Witness for C9 at a registered instance whose process exited: get
returns none although the entry is still registered. -/
theorem manager_get_liveness_c9_witness :
    ManagerM.get (mgrWith instDead) "A" = none :=
  (manager_get_liveness_c9 (mgrWith instDead) "A").2 instDead rfl (by decide)

/-- Claim C8: Manager::stop fails with Offline when the id is not
registered and with StillStarting when the registered instance has not
reached Ready; in both cases it is a pure error return, performing none of
the shutdown actions. -/
theorem manager_stop_error_cases_c8 (m : ManagerM) (id : String) :
    (m.servers.lookup id = none →
      ManagerM.stop m id = .error (.serverOffline id))
    ∧ (∀ inst, m.servers.lookup id = some inst → inst.starting = true →
      ManagerM.stop m id = .error (.serverStillStarting id)) := by
  constructor
  · intro h
    unfold ManagerM.stop
    rw [h]
  · intro inst h hs
    unfold ManagerM.stop
    rw [h]
    simp [hs]

/-- Witness for C8: stopping an unregistered id and stopping a still
starting instance, both at concrete inputs. -/
theorem manager_stop_error_cases_c8_witness :
    ManagerM.stop mgr0 "A" = .error (.serverOffline "A")
    ∧ ManagerM.stop (mgrWith instStarting) "A" = .error (.serverStillStarting "A") :=
  ⟨(manager_stop_error_cases_c8 mgr0 "A").1 rfl,
   (manager_stop_error_cases_c8 (mgrWith instStarting) "A").2 instStarting rfl rfl⟩

/-- Claim C7: a second Manager::start on an id that is already registered
(its working directory still present, as it is in the start twice in a row
scenario) fails with AlreadyOnline; the error is returned before any spawn
so the map and the registered instance are untouched. -/
theorem manager_start_already_online_c7 (dirs : List String)
    (spawnOk stdoutOk stdinOk : Bool) (m : ManagerM) (id : String) (port : Nat)
    (inst : InstanceM) (hdir : ManagerM.dirExists dirs id = true)
    (hreg : m.servers.lookup id = some inst) :
    ManagerM.start dirs spawnOk stdoutOk stdinOk m id port =
      .error (.serverAlreadyOnline id) := by
  unfold ManagerM.start
  rw [hdir, hreg]
  rfl

/-- Witness for C7 at a concrete registered instance. -/
theorem manager_start_already_online_c7_witness :
    ManagerM.start ["A"] true true true (mgrWith instReady) "A" 25565 =
      .error (.serverAlreadyOnline "A") :=
  manager_start_already_online_c7 ["A"] true true true (mgrWith instReady)
    "A" 25565 instReady (by decide) rfl

/-- Claim C1 (divergence): for a registered Ready instance whose process
has already exited, Manager::stop reports ServerProcessExited but as an
early error return: Instance::send re-runs the process check inside
Instance::stop and its error propagates through the question marks before
thread_cond is cleared, the pumps are joined, the process is reaped, or the
entry is removed, so stop never returns Ok and the instance stays
registered.  The claim (and the discarded process_check at the top of
Instance::stop) expects cleanup and removal instead. -/
theorem manager_stop_exited_no_cleanup_c1 :
    ManagerM.stop (mgrWith instDead) "A" = .error (.serverProcessExited "A")
    ∧ (∀ m2, ManagerM.stop (mgrWith instDead) "A" ≠ .ok m2) := by
  refine ⟨rfl, ?_⟩
  intro m2 h
  rw [show ManagerM.stop (mgrWith instDead) "A"
      = Except.error (SError.serverProcessExited "A") from rfl] at h
  exact Except.noConfusion h

/-- Claim C10: Manager::delete performs a best-effort stop whose error
(Offline or StillStarting included) is discarded, then fails with
FilesMissing exactly when the working directory is absent, and otherwise
removes the directory recursively and succeeds when the filesystem
removal does; the only errors delete itself can return are FilesMissing
and the IoError propagated from fs::remove_dir_all, never the swallowed
stop errors. -/
theorem manager_delete_best_effort_c10 (dirs : List String) (removeOk : Bool)
    (m : ManagerM) (id : String) :
    (∀ e, ManagerM.delete dirs removeOk m id = .error e →
      (e = .serverFilesMissing id ∨ e = .ioError))
    ∧ (ManagerM.dirExists dirs id = false →
      ManagerM.delete dirs removeOk m id = .error (.serverFilesMissing id))
    ∧ (ManagerM.dirExists dirs id = true → removeOk = true →
      ∃ m2, ManagerM.delete dirs removeOk m id = .ok (dirs.erase id, m2))
    ∧ (ManagerM.dirExists dirs id = true → removeOk = false →
      ManagerM.delete dirs removeOk m id = .error .ioError)
    ∧ ((ManagerM.stop m id = .error (.serverOffline id)
        ∨ ManagerM.stop m id = .error (.serverStillStarting id)) →
      ManagerM.delete dirs removeOk m id =
        if ManagerM.dirExists dirs id then
          (if removeOk then .ok (dirs.erase id, m) else .error .ioError)
        else .error (.serverFilesMissing id)) := by
  refine ⟨?_, ?_, ?_, ?_, ?_⟩
  · intro e h
    unfold ManagerM.delete at h
    cases hd : ManagerM.dirExists dirs id with
    | false =>
      rw [hd] at h
      simp at h
      exact Or.inl h.symm
    | true =>
      rw [hd] at h
      cases hr : removeOk with
      | false =>
        rw [hr] at h
        simp at h
        exact Or.inr h.symm
      | true =>
        rw [hr] at h
        simp at h
  · intro hd
    unfold ManagerM.delete
    rw [hd]
    rfl
  · intro hd hr
    unfold ManagerM.delete
    rw [hd, hr]
    exact ⟨_, rfl⟩
  · intro hd hr
    unfold ManagerM.delete
    rw [hd, hr]
    rfl
  · intro h
    rcases h with h | h <;>
    · unfold ManagerM.delete
      rw [h]
      cases hd : ManagerM.dirExists dirs id <;>
        cases hr : removeOk <;> simp [hd, hr]

/-- Witness for C10: deleting an id with no directory fails with
FilesMissing; deleting an existing directory for an unregistered id
(internal stop fails with Offline, swallowed) succeeds and erases it when
the removal succeeds, and propagates IoError when the removal fails. -/
theorem manager_delete_best_effort_c10_witness :
    ManagerM.delete [] true mgr0 "A" = .error (.serverFilesMissing "A")
    ∧ (∃ m2, ManagerM.delete ["A"] true mgr0 "A"
        = .ok ((["A"] : List String).erase "A", m2))
    ∧ ManagerM.delete ["A"] false mgr0 "A" = .error .ioError :=
  ⟨(manager_delete_best_effort_c10 [] true mgr0 "A").2.1 (by decide),
   (manager_delete_best_effort_c10 ["A"] true mgr0 "A").2.2.1 (by decide) rfl,
   (manager_delete_best_effort_c10 ["A"] false mgr0 "A").2.2.2.1 (by decide) rfl⟩

/-- Rust str::is_char_boundary over the UTF-8 byte representation of the
line (a list of byte values): index 0 and the length are boundaries, an
index past the end is not, and otherwise the byte at the index must not be
a continuation byte (0x80 to 0xBF). -/
def isCharBoundary (bs : List Nat) (i : Nat) : Bool :=
  if i == 0 then true
  else match bs[i]? with
    | none => i == bs.length
    | some b => decide (b < 128) || decide (192 ≤ b)

/-- The readiness sentinel compared against the line suffix in the stdout
pump (src/lib.rs line 323); it is pure ASCII so its bytes are its
character codes. -/
def sentinel : List Nat := "[Server] SERVER READY".toList.map Char.toNat

/-- Rust slicing s[i..] on a string s: defined (the suffix from byte i)
exactly when i is a character boundary, a panic otherwise (None). -/
def sliceFrom (bs : List Nat) (i : Nat) : Option (List Nat) :=
  if isCharBoundary bs i then some (bs.drop i) else none

/-- The body of the stdout pump for one received line (src/lib.rs lines
318-334): take the suffix from byte 33 (panicking when 33 is not a char
boundary), clear the starting flag when the suffix equals the sentinel,
then append the line to console_log.  None models the panic, which kills
the pump thread before the line is logged. -/
def pumpLineStep (starting : Bool) (log : List (List Nat)) (line : List Nat) :
    Option (Bool × List (List Nat)) :=
  match sliceFrom line 33 with
  | none => none
  | some b =>
    let st2 := if b = sentinel then false else starting
    some (st2, log ++ [line])

/-- Claim C3 is false on the code: the per-line readiness check panics on
the empty line, since byte index 33 is past its end. -/
theorem pump_slice_panics_c3_cex : pumpLineStep true [] [] = none := rfl

/-- Claim C3 as amended: the per-line readiness check completes exactly
when byte 33 is a character boundary of the line; in particular every line
shorter than 33 bytes makes the slice panic. -/
theorem pump_slice_domain_c3 (st : Bool) (log : List (List Nat)) (line : List Nat) :
    (pumpLineStep st log line).isSome = isCharBoundary line 33
    ∧ (line.length < 33 → pumpLineStep st log line = none) := by
  constructor
  · unfold pumpLineStep sliceFrom
    cases h : isCharBoundary line 33 <;> simp [h]
  · intro h
    have hb : isCharBoundary line 33 = false := by
      unfold isCharBoundary
      rw [List.getElem?_eq_none (by omega)]
      simp
      omega
    unfold pumpLineStep sliceFrom
    rw [hb]
    rfl

/-- Witness for the amended C3 at a concrete two-byte line. -/
theorem pump_slice_domain_c3_witness : pumpLineStep true [] [72, 105] = none :=
  (pump_slice_domain_c3 true [] [72, 105]).2 (by decide)

/-- The update the stdout pump applies to the starting flag on a line that
does not panic: cleared exactly on a sentinel match, kept otherwise. -/
def flagStep (st : Bool) (line : List Nat) : Bool :=
  if sliceFrom line 33 = some sentinel then false else st

/-- The successive values of the starting flag while the pump processes a
line sequence, beginning with the given value. -/
def flagTrace : Bool → List (List Nat) → List Bool
  | st, [] => [st]
  | st, l :: ls => st :: flagTrace (flagStep st l) ls

/-- The number of true-to-false transitions along a flag trace. -/
def flips : List Bool → Nat
  | [] => 0
  | [_] => 0
  | a :: b :: rest => (if a && !b then 1 else 0) + flips (b :: rest)

theorem flagStep_false (l : List Nat) : flagStep false l = false := by
  unfold flagStep
  split <;> rfl

theorem flips_cons_trace (a b : Bool) (ls : List (List Nat)) :
    flips (a :: flagTrace b ls) =
      (if a && !b then 1 else 0) + flips (flagTrace b ls) := by
  cases ls <;> rfl

theorem flips_trace_false (ls : List (List Nat)) :
    flips (flagTrace false ls) = 0 := by
  induction ls with
  | nil => rfl
  | cons l ls ih =>
    show flips (false :: flagTrace (flagStep false l) ls) = 0
    rw [flagStep_false, flips_cons_trace, ih]
    rfl

theorem flips_trace_true (ls : List (List Nat)) :
    flips (flagTrace true ls) =
      if ls.any (fun l => sliceFrom l 33 == some sentinel) then 1 else 0 := by
  induction ls with
  | nil => rfl
  | cons l ls ih =>
    show flips (true :: flagTrace (flagStep true l) ls) = _
    rw [flips_cons_trace]
    by_cases h : sliceFrom l 33 = some sentinel
    · have hf : flagStep true l = false := by
        unfold flagStep
        rw [if_pos h]
      rw [hf, flips_trace_false]
      simp [h]
    · have hf : flagStep true l = true := by
        unfold flagStep
        rw [if_neg h]
      rw [hf, ih]
      simp [h]

theorem send_starting_eq (i : InstanceM) (msg : String) (i2 : InstanceM)
    (h : InstanceM.send i msg = .ok i2) : i2.starting = i.starting := by
  unfold InstanceM.send at h
  cases hc : i.process_check with
  | error e =>
    rw [hc] at h
    exact Except.noConfusion h
  | ok u =>
    rw [hc] at h
    obtain rfl := Except.ok.inj h
    rfl

/-- Claim C6: the starting flag transition is exactly once and only on the
sentinel.  The pump's flag update on a non-panicking line is flagStep; a
false flag is never set back to true by a line, by Instance::send, or by
Instance::stop; the flag becomes false exactly on a sentinel match; and
over any line sequence the true-to-false transition happens exactly once
when some line carries the sentinel at byte 33 and never otherwise. -/
theorem starting_once_c6 :
    (∀ st log line ret, pumpLineStep st log line = some ret → ret.1 = flagStep st line)
    ∧ (∀ line, flagStep false line = false)
    ∧ (∀ st line, flagStep st line = false ↔
        (st = false ∨ sliceFrom line 33 = some sentinel))
    ∧ (∀ lines, flips (flagTrace true lines) =
        if lines.any (fun l => sliceFrom l 33 == some sentinel) then 1 else 0)
    ∧ (∀ i msg i2, InstanceM.send i msg = .ok i2 → i2.starting = i.starting)
    ∧ (∀ i i2, InstanceM.stop i = .ok i2 → i2.starting = i.starting) := by
  refine ⟨?_, flagStep_false, ?_, flips_trace_true, send_starting_eq, ?_⟩
  · intro st log line ret h
    unfold pumpLineStep at h
    cases hs : sliceFrom line 33 with
    | none =>
      rw [hs] at h
      exact Option.noConfusion h
    | some b =>
      rw [hs] at h
      obtain rfl := Option.some.inj h
      unfold flagStep
      rw [hs]
      by_cases hb : b = sentinel
      · simp [hb]
      · simp [hb]
  · intro st line
    unfold flagStep
    by_cases h : sliceFrom line 33 = some sentinel
    · simp [h]
    · simp [h]
  · intro i i2 h
    exact send_starting_eq i "/stop" i2 h

/-- Witness for C6: a concrete successful Instance::send leaves the
starting flag unchanged. -/
theorem starting_once_c6_witness :
    ({ instReady with stdinQueue := ["x"] } : InstanceM).starting
      = instReady.starting :=
  starting_once_c6.2.2.2.2.1 instReady "x"
    { instReady with stdinQueue := ["x"] } rfl

/-- Shared state of the stdin pump (src/lib.rs lines 338-353): the queue
behind stdin_queue's mutex, the lines already written and flushed to the
process's stdin (in order), the shutdown signal (thread_cond set to
false), and whether the pump loop has exited. -/
structure PumpState where
  queue : List String
  written : List String
  shutdown : Bool
  halted : Bool
deriving DecidableEq, Repr

/-- An event interleaved with the stdin pump: a caller's Instance::send
push, Manager::stop clearing thread_cond, or one iteration of the pump
loop. -/
inductive PumpEv where
  | send (msg : String)
  | setShutdown
  | iter
deriving DecidableEq, Repr

/-- One iteration of the stdin pump loop body: under the queue lock, read
the condition; exit (none) only when shutdown is signalled AND the queue
is empty; otherwise drain the whole queue front to back, writing each line
followed by a newline and flushing. -/
def stdinPumpIter (s : PumpState) : Option PumpState :=
  if s.shutdown && s.queue.isEmpty then none
  else some { s with written := s.written ++ s.queue, queue := [] }

/-- Effect of one event on the pump state; an iteration after the loop has
exited changes nothing (the thread is gone), while sends still append to
the shared queue. -/
def pumpStep (s : PumpState) : PumpEv → PumpState
  | .send msg => { s with queue := s.queue ++ [msg] }
  | .setShutdown => { s with shutdown := true }
  | .iter =>
    if s.halted then s
    else
      match stdinPumpIter s with
      | none => { s with halted := true }
      | some t => t

/-- Run a sequence of interleaved events. -/
def pumpRun : PumpState → List PumpEv → PumpState
  | s, [] => s
  | s, e :: evs => pumpRun (pumpStep s e) evs

/-- The initial pump state right after Manager::start. -/
def pumpInit : PumpState :=
  { queue := [], written := [], shutdown := false, halted := false }

/-- The messages pushed by the send events of a trace, in order. -/
def sentOf : List PumpEv → List String
  | [] => []
  | .send m :: evs => m :: sentOf evs
  | .setShutdown :: evs => sentOf evs
  | .iter :: evs => sentOf evs

theorem sentOf_cons (e : PumpEv) (evs : List PumpEv) :
    sentOf (e :: evs) = sentOf [e] ++ sentOf evs := by
  cases e <;> rfl

theorem pumpStep_inv (s : PumpState) (e : PumpEv) :
    (pumpStep s e).written ++ (pumpStep s e).queue
      = s.written ++ s.queue ++ sentOf [e] := by
  cases e with
  | send m => simp [pumpStep, sentOf]
  | setShutdown => simp [pumpStep, sentOf]
  | iter =>
    simp only [pumpStep]
    by_cases hh : s.halted = true
    · rw [if_pos hh]
      simp [sentOf]
    · rw [if_neg hh]
      cases hq : stdinPumpIter s with
      | none => simp [sentOf]
      | some t =>
        unfold stdinPumpIter at hq
        by_cases hc : (s.shutdown && s.queue.isEmpty) = true
        · rw [if_pos hc] at hq
          exact Option.noConfusion hq
        · rw [if_neg hc] at hq
          obtain rfl := Option.some.inj hq
          simp [sentOf]

theorem pumpRun_inv (evs : List PumpEv) : ∀ s : PumpState,
    (pumpRun s evs).written ++ (pumpRun s evs).queue
      = s.written ++ s.queue ++ sentOf evs := by
  induction evs with
  | nil =>
    intro s
    simp [pumpRun, sentOf]
  | cons e evs ih =>
    intro s
    show (pumpRun (pumpStep s e) evs).written
        ++ (pumpRun (pumpStep s e) evs).queue
      = s.written ++ s.queue ++ sentOf (e :: evs)
    rw [ih, pumpStep_inv, sentOf_cons]
    simp only [List.append_assoc]
    rw [sentOf_cons e evs]
    simp [sentOf]

theorem pumpRun_append (a b : List PumpEv) : ∀ s,
    pumpRun s (a ++ b) = pumpRun (pumpRun s a) b := by
  induction a with
  | nil => intro s; rfl
  | cons e a ih => intro s; exact ih (pumpStep s e)

theorem pumpRun_sends (msgs : List String) : ∀ q w : List String,
    pumpRun ⟨q, w, false, false⟩ (msgs.map PumpEv.send)
      = ⟨q ++ msgs, w, false, false⟩ := by
  induction msgs with
  | nil =>
    intro q w
    simp [pumpRun]
  | cons m ms ih =>
    intro q w
    show pumpRun ⟨q ++ [m], w, false, false⟩ (ms.map PumpEv.send) = _
    rw [ih]
    simp

theorem append_stop_isEmpty (msgs : List String) :
    (msgs ++ ["/stop"]).isEmpty = false := by
  cases msgs <;> rfl

/-- Claim C4: the stdin pump never loses a message.  Along any
interleaving of sends, shutdown and pump iterations, the delivered lines
followed by the still-queued lines are exactly the sent messages in call
order; one iteration exits precisely when shutdown is set and the queue is
empty, and otherwise drains the whole queue to the stream in FIFO order;
and a send sequence followed by the stop sequence (the /stop enqueue, the
shutdown signal) lets the pump deliver every message in order and then
halt. -/
theorem stdin_pump_fifo_c4 (evs : List PumpEv) (s : PumpState)
    (msgs : List String) :
    ((pumpRun pumpInit evs).written ++ (pumpRun pumpInit evs).queue = sentOf evs)
    ∧ (stdinPumpIter s = none ↔ (s.shutdown = true ∧ s.queue = []))
    ∧ (∀ t, stdinPumpIter s = some t →
        (t.written = s.written ++ s.queue ∧ t.queue = []))
    ∧ ((pumpRun pumpInit (msgs.map PumpEv.send ++
          [PumpEv.send "/stop", PumpEv.setShutdown, PumpEv.iter, PumpEv.iter])).halted
        = true
      ∧ (pumpRun pumpInit (msgs.map PumpEv.send ++
          [PumpEv.send "/stop", PumpEv.setShutdown, PumpEv.iter, PumpEv.iter])).written
        = msgs ++ ["/stop"]) := by
  refine ⟨?_, ?_, ?_, ?_⟩
  · rw [pumpRun_inv]
    rfl
  · constructor
    · intro h
      unfold stdinPumpIter at h
      by_cases hc : (s.shutdown && s.queue.isEmpty) = true
      · simp at hc
        exact hc
      · rw [if_neg hc] at h
        exact Option.noConfusion h
    · rintro ⟨h1, h2⟩
      unfold stdinPumpIter
      have hc : (s.shutdown && s.queue.isEmpty) = true := by
        rw [h1, h2]
        rfl
      rw [if_pos hc]
  · intro t h
    unfold stdinPumpIter at h
    by_cases hc : (s.shutdown && s.queue.isEmpty) = true
    · rw [if_pos hc] at h
      exact Option.noConfusion h
    · rw [if_neg hc] at h
      obtain rfl := Option.some.inj h
      exact ⟨rfl, rfl⟩
  · rw [pumpRun_append]
    rw [show pumpInit = (⟨[], [], false, false⟩ : PumpState) from rfl]
    rw [pumpRun_sends]
    rw [List.nil_append]
    have hi : stdinPumpIter (⟨msgs ++ ["/stop"], [], true, false⟩ : PumpState)
        = some ⟨[], msgs ++ ["/stop"], true, false⟩ := by
      simp [stdinPumpIter, append_stop_isEmpty]
    have h1 : pumpStep (⟨msgs ++ ["/stop"], [], true, false⟩ : PumpState) PumpEv.iter
        = ⟨[], msgs ++ ["/stop"], true, false⟩ := by
      simp [pumpStep, hi]
    have h2 : pumpStep (⟨[], msgs ++ ["/stop"], true, false⟩ : PumpState) PumpEv.iter
        = ⟨[], msgs ++ ["/stop"], true, true⟩ := by
      simp [pumpStep, stdinPumpIter]
    have key : pumpRun (⟨msgs ++ ["/stop"], [], true, false⟩ : PumpState)
        [PumpEv.iter, PumpEv.iter] = ⟨[], msgs ++ ["/stop"], true, true⟩ := by
      calc pumpRun (⟨msgs ++ ["/stop"], [], true, false⟩ : PumpState)
            [PumpEv.iter, PumpEv.iter]
          = pumpRun (pumpStep (⟨msgs ++ ["/stop"], [], true, false⟩ : PumpState)
              PumpEv.iter) [PumpEv.iter] := rfl
        _ = pumpRun (⟨[], msgs ++ ["/stop"], true, false⟩ : PumpState)
              [PumpEv.iter] := by rw [h1]
        _ = pumpStep (⟨[], msgs ++ ["/stop"], true, false⟩ : PumpState)
              PumpEv.iter := rfl
        _ = ⟨[], msgs ++ ["/stop"], true, true⟩ := h2
    show (pumpRun (⟨msgs ++ ["/stop"], [], true, false⟩ : PumpState)
          [PumpEv.iter, PumpEv.iter]).halted = true
      ∧ (pumpRun (⟨msgs ++ ["/stop"], [], true, false⟩ : PumpState)
          [PumpEv.iter, PumpEv.iter]).written = msgs ++ ["/stop"]
    rw [key]
    exact ⟨rfl, rfl⟩

/-- Witness for C4 at a concrete pump state with a nonempty queue: one
iteration drains it to the written stream in order and empties the queue. -/
theorem stdin_pump_fifo_c4_witness :
    ((⟨[], ["a", "b"], false, false⟩ : PumpState).written
        = (⟨["a", "b"], [], false, false⟩ : PumpState).written
          ++ (⟨["a", "b"], [], false, false⟩ : PumpState).queue)
    ∧ (⟨[], ["a", "b"], false, false⟩ : PumpState).queue = [] :=
  (stdin_pump_fifo_c4 [] ⟨["a", "b"], [], false, false⟩ []).2.2.1
    ⟨[], ["a", "b"], false, false⟩ rfl

/-- The effectful statements of Manager::start in their source order
(src/lib.rs): spawn the java child (line 283), take its stdout (295) and
stdin (299), spawn the stdout pump thread (310), spawn the stdin pump
thread (338), enqueue the readiness handshake /say SERVER READY through
Instance::send (354), and insert the instance into the servers map (357). -/
inductive StartEvent where
  | spawnChild
  | takeStdout
  | takeStdin
  | spawnStdoutPump
  | spawnStdinPump
  | enqueueHandshake
  | registerInstance
deriving DecidableEq, BEq, Repr

/-- The program order of those statements in the body of Manager::start. -/
def startEventOrder : List StartEvent :=
  [.spawnChild, .takeStdout, .takeStdin, .spawnStdoutPump, .spawnStdinPump,
   .enqueueHandshake, .registerInstance]

/-- Claim C2 is false on the code: the handshake enqueue does not precede
the spawn of the stdout pump thread; the pump thread is created at line
310, before the enqueue at line 354, so it can begin reading and checking
lines before the handshake command is queued. -/
theorem handshake_order_c2_cex :
    ¬ (startEventOrder.indexOf StartEvent.enqueueHandshake
        < startEventOrder.indexOf StartEvent.spawnStdoutPump) := by decide

/-- Claim C2 as amended: in Manager::start the stdout pump thread is
spawned strictly before the readiness handshake is enqueued, and the
enqueue still happens before the instance is registered in the map. -/
theorem handshake_order_c2 :
    startEventOrder.indexOf StartEvent.spawnStdoutPump
      < startEventOrder.indexOf StartEvent.enqueueHandshake
    ∧ startEventOrder.indexOf StartEvent.enqueueHandshake
      < startEventOrder.indexOf StartEvent.registerInstance := by decide
